import Mathlib

/-!
# configmap-to-disk: reconciler and command wiring

A shallow embedding of `controller.go` and `main.go`.

* The filesystem is a map from path to file; `os.Remove` and `ioutil.WriteFile`
  are library calls, so their failures are inputs: every handler call receives
  an `Oracle` saying which failure, if any, the operating system injects.
* The two Prometheus counters are natural numbers (`Inc` adds one).
* The logger is the list of lines handed to it, oldest first.
* Blocking calls of `controller.run` are run against a list of `Tick`s, the
  successive observations the goroutine makes of its environment.
-/

namespace ConfigmapToDisk

/-! ## Errors -/

/-- Failure causes of a filesystem call other than a missing path. -/
inductive Fault
  | EACCES | EPERM | EROFS | EBUSY | EISDIR | ENOTDIR | ENOSPC
  deriving DecidableEq

/-- Error numbers as the code distinguishes them: `ENOENT` is the one that
`os.IsNotExist` recognises. -/
inductive Errno
  | ENOENT
  | fault (f : Fault)
  deriving DecidableEq

/-- Go `error` values occurring in the program. -/
inductive GoError
  /-- An `*os.PathError`. -/
  | path (op name : String) (e : Errno)
  /-- An error produced by a library outside package os (API client, net). -/
  | lib (text : String)
  /-- The result of `errors.New` or of `fmt.Errorf` without `%w`. -/
  | new (text : String)
  /-- The result of `fmt.Errorf(ctx ++ ": %w", inner)`. -/
  | wrap (ctx : String) (inner : GoError)
  deriving DecidableEq

def Fault.text : Fault → String
  | .EACCES => "permission denied"
  | .EPERM => "operation not permitted"
  | .EROFS => "read-only file system"
  | .EBUSY => "device or resource busy"
  | .EISDIR => "is a directory"
  | .ENOTDIR => "not a directory"
  | .ENOSPC => "no space left on device"

def Errno.text : Errno → String
  | .ENOENT => "no such file or directory"
  | .fault f => f.text

/-- The method `Error()`, which `%v` prints. -/
def GoError.Error : GoError → String
  | .path op name e => op ++ " " ++ name ++ ": " ++ e.text
  | .lib text => text
  | .new text => text
  | .wrap ctx inner => ctx ++ ": " ++ inner.Error

/-- The function `os.IsNotExist`: it looks through a `*os.PathError` only. -/
def osIsNotExist : GoError → Bool
  | .path _ _ .ENOENT => true
  | _ => false

/-! ## Filesystem -/

/-- A regular file: its bytes and permission bits. -/
structure File where
  content : String
  perm : Nat
  deriving DecidableEq

/-- The filesystem: what each path holds, `none` when nothing exists there. -/
abbrev FileSys := String → Option File

/-- A failing `ioutil.WriteFile`: the error it returns and what it leaves at
the path (nothing, the old file, a truncated file, ...). -/
structure WriteFault where
  op : String
  err : Errno
  residue : Option File

/-- The failures the operating system injects into one handler call. A
missing path on removal is not injected: it follows from the filesystem. -/
structure Oracle where
  remove : Option Fault
  write : Option WriteFault

/-- The oracle under which no call fails for an injected reason. -/
def Oracle.clean : Oracle := ⟨none, none⟩

/-- The call `os.Remove(name)`: an injected fault leaves the filesystem as it
is; otherwise a missing path gives `ENOENT` and an existing file is unlinked. -/
def osRemove (fs : FileSys) (fault : Option Fault) (name : String) :
    FileSys × Option GoError :=
  match fault with
  | some f => (fs, some (.path "remove" name (.fault f)))
  | none =>
    match fs name with
    | none => (fs, some (.path "remove" name .ENOENT))
    | some _ => (fun p => if p = name then none else fs p, none)

/-- The call `ioutil.WriteFile(filename, data, perm)`: open with
`O_WRONLY|O_CREATE|O_TRUNC`, write, close. `perm` applies only when the file
is created. -/
def ioutilWriteFile (fs : FileSys) (fault : Option WriteFault)
    (filename data : String) (perm : Nat) : FileSys × Option GoError :=
  match fault with
  | some wf =>
    (fun p => if p = filename then wf.residue else fs p,
      some (.path wf.op filename wf.err))
  | none =>
    let f : File :=
      match fs filename with
      | some old => { content := data, perm := old.perm }
      | none => { content := data, perm := perm }
    (fun p => if p = filename then some f else fs p, none)

/-! ## Logging -/

inductive Level
  | debug | info | warn | error
  deriving DecidableEq

/-- One key/value pair handed to the logger at a level. -/
structure LogLine where
  lvl : Level
  key : String
  value : String
  deriving DecidableEq

/-! ## Resources and events -/

/-- The type `v1.ConfigMap`, reduced to the field the program reads. -/
structure ConfigMap where
  Data : List (String × String)
  deriving DecidableEq

/-- The map read `cm.Data[key]` with its `ok` flag. -/
def ConfigMap.get (cm : ConfigMap) (key : String) : Option String :=
  cm.Data.lookup key

/-- A value of type `interface{}` handed to an event handler. -/
inductive Obj
  | configMap (cm : ConfigMap)
  /-- Any value whose dynamic type is not `*v1.ConfigMap`. -/
  | other (typeName : String)
  deriving DecidableEq

/-- A notification of the informer. -/
inductive Event
  | Added (obj : Obj)
  | Updated (oldObj newObj : Obj)
  | Deleted (obj : Obj)
  deriving DecidableEq

/-! ## The controller -/

/-- The struct `controller`: configuration, logger output and counters. -/
structure controller where
  path : String
  key : String
  logger : List LogLine
  reconcileAttempts : Nat
  reconcileErrors : Nat
  deriving DecidableEq

/-- The method `controller.handle` (controller.go, lines 84-106). -/
def controller.handle (c : controller) (fs : FileSys) (o : Oracle) (obj : Obj) :
    controller × FileSys :=
  let c := { c with reconcileAttempts := c.reconcileAttempts + 1 }
  match obj with
  | .other _ =>
    ({ c with logger := c.logger ++ [⟨.warn, "msg", "object is not a ConfigMap"⟩] }, fs)
  | .configMap cm =>
    match cm.get c.key with
    | none =>
      match osRemove fs o.remove c.path with
      | (fs, some err) =>
        ({ c with
            reconcileErrors := c.reconcileErrors + 1
            logger := c.logger ++ [⟨.error, "err", "failed to delete file: " ++ err.Error⟩] },
          fs)
      | (fs, none) => (c, fs)
    | some data =>
      match ioutilWriteFile fs o.write c.path data 0o644 with
      | (fs, some err) =>
        ({ c with
            reconcileErrors := c.reconcileErrors + 1
            logger := c.logger ++ [⟨.error, "err", "failed to write file: " ++ err.Error⟩] },
          fs)
      | (fs, none) => (c, fs)

/-- The closure `DeleteFunc` of `controller.run` (controller.go, lines 71-77). -/
def controller.deleteFunc (c : controller) (fs : FileSys) (o : Oracle) :
    controller × FileSys :=
  let c := { c with reconcileAttempts := c.reconcileAttempts + 1 }
  match osRemove fs o.remove c.path with
  | (fs, some err) =>
    if !osIsNotExist err then
      ({ c with
          reconcileErrors := c.reconcileErrors + 1
          logger := c.logger ++ [⟨.error, "err", "failed to delete file: " ++ err.Error⟩] },
        fs)
    else (c, fs)
  | (fs, none) => (c, fs)

/-- The handlers registered by `controller.run` (controller.go, lines 68-78):
`AddFunc` is `c.handle`, `UpdateFunc` hands the new object to `c.handle`,
`DeleteFunc` ignores its argument. -/
def controller.dispatch (c : controller) (fs : FileSys) (o : Oracle) :
    Event → controller × FileSys
  | .Added obj => c.handle fs o obj
  | .Updated _ obj => c.handle fs o obj
  | .Deleted _ => c.deleteFunc fs o

/-- The informer calls the handlers one event at a time, in delivery order. -/
def controller.process (c : controller) (fs : FileSys) :
    List (Event × Oracle) → controller × FileSys
  | [] => (c, fs)
  | (ev, o) :: rest =>
    let r := c.dispatch fs o ev
    r.1.process r.2 rest

/-! ## One-shot mode -/

/-- The API client as far as the program uses it: the call
`client.CoreV1().ConfigMaps(ns).Get(name, ...)`. -/
abbrev Client := String → String → Except GoError ConfigMap

/-- What a run of `runOneTime` leaves behind. -/
structure OneTimeResult where
  err : Option GoError
  fs : FileSys
  logger : List LogLine

/-- The function `runOneTime` (controller.go, lines 108-130). -/
def runOneTime (client : Client) (ns path name key : String) (logger : List LogLine)
    (fs : FileSys) (o : Oracle) : OneTimeResult :=
  match client ns name with
  | .error err =>
    ⟨some err, fs,
      logger ++ [⟨.error, "err", "Failed to retrieve ConfigMap: " ++ err.Error⟩]⟩
  | .ok cm =>
    match cm.get key with
    | none =>
      ⟨some (.new ("Configmap does not include specified key: " ++ key)), fs,
        logger ++ [⟨.error, "err", "Configmap does not have key: " ++ key⟩]⟩
    | some data =>
      match ioutilWriteFile fs o.write path data 0o644 with
      | (fs, some err) =>
        ⟨none, fs, logger ++ [⟨.error, "err", "failed to write file: " ++ err.Error⟩]⟩
      | (fs, none) => ⟨none, fs, logger⟩

/-! ## The watch loop -/

/-- One observation the goroutine of `controller.run` makes of its
environment. -/
structure Tick where
  /-- The call `cache.WaitForCacheSync(stop, ...)`: `none` while it blocks,
  `some ok` when it returns `ok`. -/
  synced : Option Bool
  /-- Whether the channel `stop` is closed. -/
  stop : Bool
  deriving DecidableEq

/-- Calls made on the informer. -/
inductive InformerCall
  | Run
  | AddEventHandler
  deriving DecidableEq

/-- Where `controller.run` stands. -/
inductive Pc
  /-- Blocked in `cache.WaitForCacheSync` (line 61). -/
  | waitForCacheSync
  /-- Blocked in the receive from `stop` (line 80). -/
  | recvStop
  /-- Returned with this error. -/
  | returned (err : Option GoError)
  deriving DecidableEq

structure RunState where
  pc : Pc
  informer : List InformerCall
  deriving DecidableEq

/-- The state after line 60: the informer goroutine is started, the wait for
the cache begins. -/
def controller.runStart : RunState := ⟨.waitForCacheSync, [.Run]⟩

/-- One observation applied to `controller.run` (controller.go, lines 61-81). -/
def controller.runStep (s : RunState) (t : Tick) : RunState :=
  match s.pc with
  | .waitForCacheSync =>
    match t.synced with
    | none => s
    | some false => { s with pc := .returned (some (.new "sync peer cache")) }
    | some true =>
      let s : RunState := { s with informer := s.informer ++ [InformerCall.AddEventHandler] }
      if t.stop then { s with pc := .returned none } else { s with pc := .recvStop }
  | .recvStop => if t.stop then { s with pc := .returned none } else s
  | .returned _ => s

/-- The method `controller.run` (controller.go, lines 59-82) against the
observations `ticks`. -/
def controller.run (ticks : List Tick) : RunState :=
  ticks.foldl controller.runStep controller.runStart

/-! ## Command wiring -/

/-- The values of the command-line flags. -/
structure Flags where
  kubeconfig : String
  ns : String
  path : String
  name : String
  key : String
  listen : String
  logLevel : String
  syncOneTime : Bool

/-- What a command handler does besides logging and writing the file. -/
inductive Action
  /-- The call `r.MustRegister(...)` on the fresh registry. -/
  | mustRegister
  /-- The call `newController(...)`. -/
  | newController
  /-- The call `net.Listen("tcp", addr)`. -/
  | netListen (addr : String)
  /-- The first `g.Add`: serve HTTP, interrupted by `l.Close()`. -/
  | addServerActor
  /-- The statement `stop := make(chan struct{})`. -/
  | makeStop
  /-- The second `g.Add`: `c.run(stop)`, interrupted by `close(stop)`. -/
  | addWatchActor
  /-- The call `g.Run()`. -/
  | groupRun
  /-- The call `c.run(stop)` inside the watch actor. -/
  | controllerRun
  /-- A call on the informer. -/
  | informer (call : InformerCall)
  /-- The statement `close(stop)`. -/
  | closeStop
  /-- The call `l.Close()`. -/
  | listenerClose
  deriving DecidableEq

/-- What `g.Run()` does and returns. The run group is library code running
its actors concurrently; its course is an input. -/
structure GroupRun where
  err : Option GoError
  actions : List Action
  fs : FileSys
  logger : List LogLine

/-- The world a command handler runs in. -/
structure Sys where
  client : Client
  /-- The call `net.Listen("tcp", addr)`: the error, if binding fails. -/
  netListen : String → Option GoError
  groupRun : GroupRun
  oracle : Oracle
  fs : FileSys
  logger : List LogLine

/-- What a command handler leaves behind. -/
structure CmdResult where
  err : Option GoError
  actions : List Action
  fs : FileSys
  logger : List LogLine

/-- The closure returned by `runCmd` (main.go, lines 108-155). -/
def runCmd (fl : Flags) (sys : Sys) : CmdResult :=
  let acts : List Action := [.mustRegister, .newController, .netListen fl.listen]
  match sys.netListen fl.listen with
  | some err => ⟨some (.wrap ("listen on " ++ fl.listen) err), acts, sys.fs, sys.logger⟩
  | none =>
    let acts := acts ++ [.addServerActor, .makeStop, .addWatchActor, .groupRun]
    ⟨sys.groupRun.err, acts ++ sys.groupRun.actions, sys.groupRun.fs, sys.groupRun.logger⟩

/-- The closure returned by `runCmdOneTime` (main.go, lines 157-162). -/
def runCmdOneTime (fl : Flags) (sys : Sys) : CmdResult :=
  let logger := sys.logger ++ [⟨.info, "msg", "Runing configmap-to-disk in one time mode."⟩]
  let r := runOneTime sys.client fl.ns fl.path fl.name fl.key logger sys.fs sys.oracle
  ⟨r.err, [], r.fs, r.logger⟩

/-- The struct `cobra.Command`, reduced to the handler `main` assigns. -/
structure Command where
  RunE : Option (Flags → Sys → CmdResult)

/-- The assignments to `cmd.RunE` in `main` (main.go, lines 96-100), with
`syncOneTime` the value of that variable when they execute. -/
def main (syncOneTime : Bool) : Command :=
  let cmd : Command := { RunE := none }
  let cmd := if !syncOneTime then { cmd with RunE := some runCmd } else cmd
  let cmd := { cmd with RunE := some runCmdOneTime }
  cmd

/-! ## Example inputs -/

/-- A fresh controller for key `config.yaml` writing to `/etc/app/config.yaml`. -/
def exampleController : controller :=
  { path := "/etc/app/config.yaml", key := "config.yaml", logger := [],
    reconcileAttempts := 0, reconcileErrors := 0 }

/-- The filesystem holding nothing. -/
def emptyFs : FileSys := fun _ => none

/-- The resource with `data = {"config.yaml": "foo: bar"}`. -/
def exampleConfigMap : ConfigMap := ⟨[("config.yaml", "foo: bar")]⟩

/-- Flags of a watch on `default/app`, listening on `:8080`. -/
def exampleFlags : Flags :=
  { kubeconfig := "", ns := "default", path := "/etc/app/config.yaml", name := "app",
    key := "config.yaml", listen := ":8080", logLevel := "info", syncOneTime := false }

/-- The error of a bind on an address in use. -/
def bindError : GoError := .lib "listen tcp :8080: bind: address already in use"

/-- A world in which every bind fails with `bindError`. -/
def busySys : Sys :=
  { client := fun _ _ => .ok exampleConfigMap
    netListen := fun _ => some bindError
    groupRun := ⟨none, [], emptyFs, []⟩
    oracle := Oracle.clean
    fs := emptyFs
    logger := [] }

/-! ## Basic facts -/

theorem handle_fst_path (c : controller) (fs : FileSys) (o : Oracle) (obj : Obj) :
    (c.handle fs o obj).1.path = c.path ∧ (c.handle fs o obj).1.key = c.key := by
  unfold controller.handle
  cases obj with
  | other t => simp
  | configMap cm =>
    dsimp only
    cases cm.get c.key with
    | none =>
      dsimp only
      rcases osRemove fs o.remove c.path with ⟨fs1, _ | err⟩ <;> simp
    | some data =>
      dsimp only
      rcases ioutilWriteFile fs o.write c.path data 0o644 with ⟨fs1, _ | err⟩ <;> simp

theorem deleteFunc_fst_path (c : controller) (fs : FileSys) (o : Oracle) :
    (c.deleteFunc fs o).1.path = c.path ∧ (c.deleteFunc fs o).1.key = c.key := by
  unfold controller.deleteFunc
  dsimp only
  rcases osRemove fs o.remove c.path with ⟨fs1, _ | err⟩
  · simp
  · dsimp only
    split <;> simp

theorem dispatch_fst_path (c : controller) (fs : FileSys) (o : Oracle) (ev : Event) :
    (c.dispatch fs o ev).1.path = c.path ∧ (c.dispatch fs o ev).1.key = c.key := by
  cases ev with
  | Added obj => exact handle_fst_path c fs o obj
  | Updated _ obj => exact handle_fst_path c fs o obj
  | Deleted _ => exact deleteFunc_fst_path c fs o

theorem process_fst_path (evs : List (Event × Oracle)) :
    ∀ (c : controller) (fs : FileSys),
      (c.process fs evs).1.path = c.path ∧ (c.process fs evs).1.key = c.key := by
  induction evs with
  | nil => intro c fs; simp [controller.process]
  | cons e rest ih =>
    intro c fs
    obtain ⟨ev, o⟩ := e
    simp only [controller.process]
    have h := dispatch_fst_path c fs o ev
    have h2 := ih (c.dispatch fs o ev).1 (c.dispatch fs o ev).2
    exact ⟨h2.1.trans h.1, h2.2.trans h.2⟩

theorem process_append (xs ys : List (Event × Oracle)) :
    ∀ (c : controller) (fs : FileSys),
      c.process fs (xs ++ ys) = (c.process fs xs).1.process (c.process fs xs).2 ys := by
  induction xs with
  | nil => intro c fs; simp [controller.process]
  | cons e rest ih =>
    intro c fs
    obtain ⟨ev, o⟩ := e
    simp only [List.cons_append, controller.process]
    exact ih _ _

/-- The file `os.Remove` leaves at the path when no fault is injected: none. -/
theorem osRemove_clean_absent (fs : FileSys) (name : String) :
    (osRemove fs none name).1 name = none := by
  unfold osRemove
  dsimp only
  cases h : fs name with
  | none => simpa using h
  | some f => simp

/-- The file `ioutil.WriteFile` leaves at the path when it succeeds. -/
theorem ioutilWriteFile_clean_content (fs : FileSys) (name data : String) (perm : Nat) :
    ∃ f, (ioutilWriteFile fs none name data perm).1 name = some f ∧ f.content = data := by
  unfold ioutilWriteFile
  dsimp only
  cases fs name <;> simp

theorem ioutilWriteFile_err (fs : FileSys) (w : Option WriteFault) (name data : String)
    (perm : Nat) : (ioutilWriteFile fs w name data perm).2 = none ↔ w = none := by
  unfold ioutilWriteFile
  cases w <;> simp

/-- On a snapshot holding the key, `handle` is one `ioutil.WriteFile`. -/
theorem handle_present (c : controller) (fs : FileSys) (o : Oracle) (cm : ConfigMap)
    (data : String) (hkey : cm.get c.key = some data) :
    (c.handle fs o (.configMap cm)).2 = (ioutilWriteFile fs o.write c.path data 0o644).1 ∧
    (c.handle fs o (.configMap cm)).1.reconcileAttempts = c.reconcileAttempts + 1 ∧
    (c.handle fs o (.configMap cm)).1.reconcileErrors =
      if (ioutilWriteFile fs o.write c.path data 0o644).2 = none then c.reconcileErrors
      else c.reconcileErrors + 1 := by
  unfold controller.handle
  simp only [hkey]
  rcases ioutilWriteFile fs o.write c.path data 0o644 with ⟨fs1, _ | err⟩ <;> simp

/-- On a snapshot lacking the key, `handle` is one `os.Remove`, and every
error it returns is counted. -/
theorem handle_absent (c : controller) (fs : FileSys) (o : Oracle) (cm : ConfigMap)
    (hkey : cm.get c.key = none) :
    (c.handle fs o (.configMap cm)).2 = (osRemove fs o.remove c.path).1 ∧
    (c.handle fs o (.configMap cm)).1.reconcileAttempts = c.reconcileAttempts + 1 ∧
    (c.handle fs o (.configMap cm)).1.reconcileErrors =
      if (osRemove fs o.remove c.path).2 = none then c.reconcileErrors
      else c.reconcileErrors + 1 := by
  unfold controller.handle
  simp only [hkey]
  rcases osRemove fs o.remove c.path with ⟨fs1, _ | err⟩ <;> simp

/-- The delete handler is one `os.Remove`; an error is counted unless
`os.IsNotExist` holds of it. -/
theorem deleteFunc_eq (c : controller) (fs : FileSys) (o : Oracle) :
    (c.deleteFunc fs o).2 = (osRemove fs o.remove c.path).1 ∧
    (c.deleteFunc fs o).1.reconcileAttempts = c.reconcileAttempts + 1 ∧
    (c.deleteFunc fs o).1.reconcileErrors =
      match (osRemove fs o.remove c.path).2 with
      | none => c.reconcileErrors
      | some err => if osIsNotExist err then c.reconcileErrors else c.reconcileErrors + 1 := by
  unfold controller.deleteFunc
  dsimp only
  rcases osRemove fs o.remove c.path with ⟨fs1, _ | err⟩
  · simp
  · dsimp only
    cases osIsNotExist err <;> simp

/-- When `os.Remove` returns no error, or one that `os.IsNotExist` accepts,
nothing exists at the path afterwards. -/
theorem osRemove_absent_after (fs : FileSys) (fault : Option Fault) (name : String)
    (h : (osRemove fs fault name).2 = none ∨
      ∃ e, (osRemove fs fault name).2 = some e ∧ osIsNotExist e = true) :
    (osRemove fs fault name).1 name = none := by
  unfold osRemove at h ⊢
  cases fault with
  | some f => simp [osIsNotExist] at h
  | none =>
    dsimp only at h ⊢
    cases hf : fs name with
    | none => simpa using hf
    | some f => simp

/-! ## The event handlers -/

/-- C1: for every Added or Updated event whose payload is a ConfigMap holding
the target key, and every prior controller and filesystem, the handler
performs exactly one `ioutil.WriteFile` of `data[key]` to `path` and raises
attempts by exactly 1; if that write returns no error the file at `path`
holds exactly `data[key]` and errors is unchanged; if it returns an error,
errors is exactly 1 higher and attempts is still exactly 1 higher. -/
theorem dispatch_key_present (c : controller) (fs : FileSys) (o : Oracle) (ev : Event)
    (cm : ConfigMap) (data : String)
    (hev : ev = .Added (.configMap cm) ∨ ∃ old, ev = .Updated old (.configMap cm))
    (hkey : cm.get c.key = some data) :
    (c.dispatch fs o ev).1.reconcileAttempts = c.reconcileAttempts + 1 ∧
    (c.dispatch fs o ev).2 = (ioutilWriteFile fs o.write c.path data 0o644).1 ∧
    ((ioutilWriteFile fs o.write c.path data 0o644).2 = none →
      (∃ f, (c.dispatch fs o ev).2 c.path = some f ∧ f.content = data) ∧
      (c.dispatch fs o ev).1.reconcileErrors = c.reconcileErrors) ∧
    ((ioutilWriteFile fs o.write c.path data 0o644).2 ≠ none →
      (c.dispatch fs o ev).1.reconcileErrors = c.reconcileErrors + 1 ∧
      (c.dispatch fs o ev).1.reconcileAttempts = c.reconcileAttempts + 1) := by
  have hd : c.dispatch fs o ev = c.handle fs o (.configMap cm) := by
    rcases hev with rfl | ⟨old, rfl⟩ <;> rfl
  obtain ⟨hfs, hatt, herr⟩ := handle_present c fs o cm data hkey
  rw [hd]
  refine ⟨hatt, hfs, ?_, ?_⟩
  · intro hw
    refine ⟨?_, by rw [herr, if_pos hw]⟩
    rw [hfs]
    have hnone : o.write = none := (ioutilWriteFile_err fs o.write c.path data 0o644).1 hw
    rw [hnone]
    exact ioutilWriteFile_clean_content fs c.path data 0o644
  · intro hw
    exact ⟨by rw [herr, if_neg hw], hatt⟩

/-- C1 at an Added event for `{"config.yaml": "foo: bar"}` on an empty
filesystem. -/
theorem dispatch_key_present_witness :
    exampleConfigMap.get exampleController.key = some "foo: bar" ∧
    (exampleController.dispatch emptyFs Oracle.clean
        (.Added (.configMap exampleConfigMap))).1.reconcileAttempts = 1 ∧
    (∃ f, (exampleController.dispatch emptyFs Oracle.clean
        (.Added (.configMap exampleConfigMap))).2 exampleController.path = some f ∧
      f.content = "foo: bar") ∧
    (exampleController.dispatch emptyFs Oracle.clean
        (.Added (.configMap exampleConfigMap))).1.reconcileErrors = 0 :=
  have h := dispatch_key_present exampleController emptyFs Oracle.clean
    (.Added (.configMap exampleConfigMap)) exampleConfigMap "foo: bar" (Or.inl rfl) (by decide)
  ⟨by decide, h.1, (h.2.2.1 rfl).1, (h.2.2.1 rfl).2⟩

/-- C2: at an Added event whose snapshot lacks the key, with nothing at
`path` and no injected fault, `handle` counts the "does not exist" error of
`os.Remove`: errors goes from 0 to 1, and handling the event a second time
raises it to 2. The delete handler on the same state leaves errors at 0. -/
theorem handle_key_absent_counts_not_exist :
    (exampleController.dispatch emptyFs Oracle.clean
        (.Added (.configMap ⟨[]⟩))).1.reconcileErrors = 1 ∧
    (exampleController.process emptyFs
        [(.Added (.configMap ⟨[]⟩), Oracle.clean),
         (.Added (.configMap ⟨[]⟩), Oracle.clean)]).1.reconcileErrors = 2 ∧
    (exampleController.dispatch emptyFs Oracle.clean
        (.Deleted (.configMap ⟨[]⟩))).1.reconcileErrors = 0 := by
  decide

/-- C3, as stated, fails: a payload that is not a ConfigMap raises attempts
from 0 to 1. -/
theorem handle_other_counts_attempt :
    ¬ ((exampleController.handle emptyFs Oracle.clean (.other "string")).1.reconcileAttempts
          = exampleController.reconcileAttempts ∧
       (exampleController.handle emptyFs Oracle.clean (.other "string")).1.reconcileErrors
          = exampleController.reconcileErrors ∧
       (exampleController.handle emptyFs Oracle.clean (.other "string")).2 = emptyFs) := by
  intro h
  exact absurd h.1 (by decide)

/-- C3, amended: for every payload that is not a ConfigMap, `handle` raises
attempts by exactly 1, leaves errors unchanged, leaves the whole filesystem
as it was whatever the oracle, and hands one warning to the logger. -/
theorem handle_other (c : controller) (fs : FileSys) (o : Oracle) (typeName : String) :
    (c.handle fs o (.other typeName)).1.reconcileAttempts = c.reconcileAttempts + 1 ∧
    (c.handle fs o (.other typeName)).1.reconcileErrors = c.reconcileErrors ∧
    (c.handle fs o (.other typeName)).2 = fs ∧
    (c.handle fs o (.other typeName)).1.logger =
      c.logger ++ [⟨.warn, "msg", "object is not a ConfigMap"⟩] := by
  simp [controller.handle]

/-- C4: for every Deleted event and every prior controller and filesystem,
the delete handler raises attempts by exactly 1 and performs exactly one
`os.Remove` of `path`; if that call returns no error or one that
`os.IsNotExist` accepts, errors is unchanged and nothing exists at `path`
afterwards; if it returns any other error, errors is exactly 1 higher. -/
theorem dispatch_deleted (c : controller) (fs : FileSys) (o : Oracle) (obj : Obj) :
    (c.dispatch fs o (.Deleted obj)).1.reconcileAttempts = c.reconcileAttempts + 1 ∧
    (c.dispatch fs o (.Deleted obj)).2 = (osRemove fs o.remove c.path).1 ∧
    (((osRemove fs o.remove c.path).2 = none ∨
        ∃ e, (osRemove fs o.remove c.path).2 = some e ∧ osIsNotExist e = true) →
      (c.dispatch fs o (.Deleted obj)).1.reconcileErrors = c.reconcileErrors ∧
      (c.dispatch fs o (.Deleted obj)).2 c.path = none) ∧
    (∀ e, (osRemove fs o.remove c.path).2 = some e → osIsNotExist e = false →
      (c.dispatch fs o (.Deleted obj)).1.reconcileErrors = c.reconcileErrors + 1) := by
  obtain ⟨hfs, hatt, herr⟩ := deleteFunc_eq c fs o
  have hd : c.dispatch fs o (.Deleted obj) = c.deleteFunc fs o := rfl
  rw [hd]
  refine ⟨hatt, hfs, ?_, ?_⟩
  · intro h
    refine ⟨?_, by rw [hfs]; exact osRemove_absent_after fs o.remove c.path h⟩
    rw [herr]
    rcases h with h | ⟨e, he, hne⟩
    · rw [h]
    · rw [he]; simp [hne]
  · intro e he hne
    rw [herr, he]
    simp [hne]

/-- C4 at three states: a present file is removed without error, an absent
file gives "does not exist" and no error is counted, an injected `EACCES`
is counted. -/
theorem dispatch_deleted_witness :
    ((exampleController.dispatch (fun _ => some ⟨"old", 0o644⟩) Oracle.clean
        (.Deleted (.other "tombstone"))).1.reconcileErrors = 0 ∧
      (exampleController.dispatch (fun _ => some ⟨"old", 0o644⟩) Oracle.clean
        (.Deleted (.other "tombstone"))).2 exampleController.path = none) ∧
    ((exampleController.dispatch emptyFs Oracle.clean
        (.Deleted (.other "tombstone"))).1.reconcileErrors = 0 ∧
      (exampleController.dispatch emptyFs Oracle.clean
        (.Deleted (.other "tombstone"))).2 exampleController.path = none) ∧
    (exampleController.dispatch emptyFs ⟨some .EACCES, none⟩
        (.Deleted (.other "tombstone"))).1.reconcileErrors = 1 :=
  ⟨(dispatch_deleted exampleController (fun _ => some ⟨"old", 0o644⟩) Oracle.clean
      (.other "tombstone")).2.2.1 (Or.inl rfl),
   (dispatch_deleted exampleController emptyFs Oracle.clean
      (.other "tombstone")).2.2.1 (Or.inr ⟨_, rfl, rfl⟩),
   (dispatch_deleted exampleController emptyFs ⟨some .EACCES, none⟩
      (.other "tombstone")).2.2.2 _ rfl rfl⟩

/-- C7: for every non-empty sequence of events handled in order with no
injected filesystem fault (so that the only error left is "does not exist"
on removal), whatever the controller and the filesystem at the start, the
file at `path` is decided by the last event: it holds exactly `data[key]`
when that event is Added or Updated with the key present, and nothing exists
at `path` when it is Added or Updated with the key absent, or Deleted. -/
theorem process_last_event (c : controller) (fs : FileSys) (pre : List (Event × Oracle))
    (last : Event × Oracle)
    (hclean : ∀ e ∈ pre ++ [last], e.2.remove = none ∧ e.2.write = none) :
    (∀ cm data,
      (last.1 = .Added (.configMap cm) ∨ ∃ old, last.1 = .Updated old (.configMap cm)) →
      cm.get c.key = some data →
      ∃ f, (c.process fs (pre ++ [last])).2 c.path = some f ∧ f.content = data) ∧
    (∀ cm,
      (last.1 = .Added (.configMap cm) ∨ ∃ old, last.1 = .Updated old (.configMap cm)) →
      cm.get c.key = none →
      (c.process fs (pre ++ [last])).2 c.path = none) ∧
    ((∃ obj, last.1 = .Deleted obj) → (c.process fs (pre ++ [last])).2 c.path = none) := by
  obtain ⟨ev, o⟩ := last
  obtain ⟨hrm, hwr⟩ := hclean (ev, o) (by simp)
  dsimp only at hrm hwr
  obtain ⟨hpath, hkey⟩ := process_fst_path pre c fs
  have hstep : c.process fs (pre ++ [(ev, o)]) =
      (c.process fs pre).1.dispatch (c.process fs pre).2 o ev := by
    rw [process_append]; rfl
  rw [hstep]
  refine ⟨?_, ?_, ?_⟩
  · intro cm data hev hk
    have hd : (c.process fs pre).1.dispatch (c.process fs pre).2 o ev =
        (c.process fs pre).1.handle (c.process fs pre).2 o (.configMap cm) := by
      rcases hev with h | ⟨old, h⟩ <;> (dsimp only at h; subst h; rfl)
    rw [hd, (handle_present _ _ o cm data (by rw [hkey]; exact hk)).1, hpath, hwr]
    exact ioutilWriteFile_clean_content _ c.path data 0o644
  · intro cm hev hk
    have hd : (c.process fs pre).1.dispatch (c.process fs pre).2 o ev =
        (c.process fs pre).1.handle (c.process fs pre).2 o (.configMap cm) := by
      rcases hev with h | ⟨old, h⟩ <;> (dsimp only at h; subst h; rfl)
    rw [hd, (handle_absent _ _ o cm (by rw [hkey]; exact hk)).1, hpath, hrm]
    exact osRemove_clean_absent _ c.path
  · rintro ⟨obj, h⟩
    dsimp only at h
    subst h
    have hd : (c.process fs pre).1.dispatch (c.process fs pre).2 o (.Deleted obj) =
        (c.process fs pre).1.deleteFunc (c.process fs pre).2 o := rfl
    rw [hd, (deleteFunc_eq _ _ o).1, hpath, hrm]
    exact osRemove_clean_absent _ c.path

/-- C7 at the sequence Add(key=v1), Update(key=v2), Delete: no file is left. -/
theorem process_last_event_witness :
    (exampleController.process emptyFs
      ([(.Added (.configMap ⟨[("config.yaml", "v1")]⟩), Oracle.clean),
        (.Updated (.configMap ⟨[("config.yaml", "v1")]⟩)
          (.configMap ⟨[("config.yaml", "v2")]⟩), Oracle.clean)] ++
       [(.Deleted (.configMap ⟨[("config.yaml", "v2")]⟩), Oracle.clean)])).2
      exampleController.path = none :=
  (process_last_event exampleController emptyFs
    [(.Added (.configMap ⟨[("config.yaml", "v1")]⟩), Oracle.clean),
     (.Updated (.configMap ⟨[("config.yaml", "v1")]⟩)
       (.configMap ⟨[("config.yaml", "v2")]⟩), Oracle.clean)]
    (.Deleted (.configMap ⟨[("config.yaml", "v2")]⟩), Oracle.clean)
    (by
      intro e he
      simp only [List.cons_append, List.nil_append, List.mem_cons, List.mem_singleton,
        List.not_mem_nil, or_false] at he
      rcases he with rfl | rfl | rfl <;> exact ⟨rfl, rfl⟩)).2.2 ⟨_, rfl⟩

/-! ## One-shot mode -/

/-- C5: `runOneTime` returns an error exactly when the fetch fails or the
fetched snapshot lacks the key; a failed fetch returns the fetch error, a
missing key returns the key-not-found error; in both cases the filesystem is
left as it was under every oracle, so no write is performed. -/
theorem runOneTime_error (client : Client) (ns path name key : String)
    (logger : List LogLine) (fs : FileSys) (o : Oracle) :
    ((runOneTime client ns path name key logger fs o).err ≠ none ↔
      ((∃ e, client ns name = .error e) ∨
        ∃ cm, client ns name = .ok cm ∧ cm.get key = none)) ∧
    (∀ e, client ns name = .error e →
      (runOneTime client ns path name key logger fs o).err = some e ∧
      (runOneTime client ns path name key logger fs o).fs = fs) ∧
    (∀ cm, client ns name = .ok cm → cm.get key = none →
      (runOneTime client ns path name key logger fs o).err =
        some (.new ("Configmap does not include specified key: " ++ key)) ∧
      (runOneTime client ns path name key logger fs o).fs = fs) := by
  unfold runOneTime
  cases hc : client ns name with
  | error e => simp
  | ok cm =>
    cases hk : cm.get key with
    | none => simp [hk]
    | some data =>
      rcases hw : ioutilWriteFile fs o.write path data 0o644 with ⟨fs1, _ | err⟩ <;>
        simp [hk, hw]

/-- C5 at `data = {"config.yaml": "foo: bar"}` with `key = "missing"`: the
key-not-found error, and the filesystem untouched even though the oracle
would make a write leave a file behind. -/
theorem runOneTime_error_witness :
    (runOneTime (fun _ _ => .ok exampleConfigMap) "default" "/etc/app/config.yaml" "app"
        "missing" [] emptyFs ⟨none, some ⟨"write", .fault .ENOSPC, some ⟨"fo", 0o644⟩⟩⟩).err =
      some (.new "Configmap does not include specified key: missing") ∧
    (runOneTime (fun _ _ => .ok exampleConfigMap) "default" "/etc/app/config.yaml" "app"
        "missing" [] emptyFs ⟨none, some ⟨"write", .fault .ENOSPC, some ⟨"fo", 0o644⟩⟩⟩).fs =
      emptyFs :=
  (runOneTime_error (fun _ _ => .ok exampleConfigMap) "default" "/etc/app/config.yaml" "app"
    "missing" [] emptyFs ⟨none, some ⟨"write", .fault .ENOSPC, some ⟨"fo", 0o644⟩⟩⟩).2.2
    exampleConfigMap rfl (by decide)

/-- C6: when the fetch returns a snapshot holding the key, `runOneTime`
returns no error whether or not the write fails, it performs exactly one
`ioutil.WriteFile` of `data[key]` to `path`, and when that write returns no
error the file at `path` holds exactly `data[key]`, whatever it held. -/
theorem runOneTime_key_present (client : Client) (ns path name key : String)
    (logger : List LogLine) (fs : FileSys) (o : Oracle) (cm : ConfigMap) (data : String)
    (hget : client ns name = .ok cm) (hkey : cm.get key = some data) :
    (runOneTime client ns path name key logger fs o).err = none ∧
    (runOneTime client ns path name key logger fs o).fs =
      (ioutilWriteFile fs o.write path data 0o644).1 ∧
    ((ioutilWriteFile fs o.write path data 0o644).2 = none →
      ∃ f, (runOneTime client ns path name key logger fs o).fs path = some f ∧
        f.content = data) := by
  have hfs : (runOneTime client ns path name key logger fs o).err = none ∧
      (runOneTime client ns path name key logger fs o).fs =
        (ioutilWriteFile fs o.write path data 0o644).1 := by
    unfold runOneTime
    simp only [hget, hkey]
    rcases ioutilWriteFile fs o.write path data 0o644 with ⟨fs1, _ | err⟩ <;> simp
  refine ⟨hfs.1, hfs.2, ?_⟩
  intro hw
  rw [hfs.2, (ioutilWriteFile_err fs o.write path data 0o644).1 hw]
  exact ioutilWriteFile_clean_content fs path data 0o644

/-- C6 at `data = {"config.yaml": "foo: bar"}` with `key = "config.yaml"`,
over a file with other content: no error, and the file holds `foo: bar`. -/
theorem runOneTime_key_present_witness :
    (runOneTime (fun _ _ => .ok exampleConfigMap) "default" "/etc/app/config.yaml" "app"
        "config.yaml" [] (fun _ => some ⟨"stale", 0o600⟩) Oracle.clean).err = none ∧
    ∃ f, (runOneTime (fun _ _ => .ok exampleConfigMap) "default" "/etc/app/config.yaml" "app"
        "config.yaml" [] (fun _ => some ⟨"stale", 0o600⟩) Oracle.clean).fs
        "/etc/app/config.yaml" = some f ∧ f.content = "foo: bar" :=
  have h := runOneTime_key_present (fun _ _ => .ok exampleConfigMap) "default"
    "/etc/app/config.yaml" "app" "config.yaml" [] (fun _ => some ⟨"stale", 0o600⟩)
    Oracle.clean exampleConfigMap "foo: bar" rfl (by decide)
  ⟨h.1, h.2.2 rfl⟩

/-! ## Command wiring -/

/-- C8: for both values of the one-time flag variable, the handler `main`
leaves in `cmd.RunE` is the one-shot handler `runCmdOneTime`, never the
continuous handler `runCmd`; whatever the flags and the world at execution,
the installed handler binds no listener and starts no run group. -/
theorem main_runE_one_shot (syncOneTime : Bool) :
    (main syncOneTime).RunE = some runCmdOneTime ∧
    (main syncOneTime).RunE ≠ some runCmd ∧
    (∀ h fl sys, (main syncOneTime).RunE = some h → (h fl sys).actions = []) := by
  have hm : (main syncOneTime).RunE = some runCmdOneTime := by
    cases syncOneTime <;> rfl
  refine ⟨hm, ?_, ?_⟩
  · rw [hm]
    intro h
    have h2 : runCmdOneTime = runCmd := Option.some.inj h
    have h3 := congrArg (fun f => (f exampleFlags busySys).actions) h2
    simp [runCmdOneTime, runCmd, busySys] at h3
  · intro h fl sys hh
    rw [hm] at hh
    have h2 : runCmdOneTime = h := Option.some.inj hh
    subst h2
    rfl

/-- C9, as stated, fails: when the bind fails, `runCmd` returns before any
stop channel exists, so the stop signal does not fire and `c.run` never
starts; the error returned wraps the bind error and is not equal to it. -/
theorem runCmd_bind_failure_no_stop :
    busySys.netListen exampleFlags.listen = some bindError ∧
    ¬ (Action.closeStop ∈ (runCmd exampleFlags busySys).actions ∧
        Action.controllerRun ∈ (runCmd exampleFlags busySys).actions ∧
        Action.informer .AddEventHandler ∉ (runCmd exampleFlags busySys).actions ∧
        (runCmd exampleFlags busySys).err = some bindError) := by
  refine ⟨rfl, ?_⟩
  intro h
  exact absurd h.1 (by decide)

/-- C9, amended: in watch mode, if the listener fails to bind, `runCmd`
returns at once the bind error wrapped as `listen on <addr>: <error>`, having
only registered the collectors, built the controller and tried to bind: no
stop channel is made or closed, no actor is added, the run group and `c.run`
are not started, no event handler is registered, and the filesystem is left
as it was. -/
theorem runCmd_bind_failure (fl : Flags) (sys : Sys) (e : GoError)
    (hbind : sys.netListen fl.listen = some e) :
    (runCmd fl sys).err = some (.wrap ("listen on " ++ fl.listen) e) ∧
    (runCmd fl sys).actions = [.mustRegister, .newController, .netListen fl.listen] ∧
    Action.makeStop ∉ (runCmd fl sys).actions ∧
    Action.closeStop ∉ (runCmd fl sys).actions ∧
    Action.addWatchActor ∉ (runCmd fl sys).actions ∧
    Action.groupRun ∉ (runCmd fl sys).actions ∧
    Action.controllerRun ∉ (runCmd fl sys).actions ∧
    (∀ call, Action.informer call ∉ (runCmd fl sys).actions) ∧
    (runCmd fl sys).fs = sys.fs := by
  simp [runCmd, hbind]

/-- C9, amended, at a bind on an address in use. -/
theorem runCmd_bind_failure_witness :
    (runCmd exampleFlags busySys).err = some (.wrap "listen on :8080" bindError) ∧
    Action.closeStop ∉ (runCmd exampleFlags busySys).actions :=
  have h := runCmd_bind_failure exampleFlags busySys bindError rfl
  ⟨h.1, h.2.2.2.1⟩

/-! ## The watch loop -/

theorem runStep_returned (ticks : List Tick) (err : Option GoError)
    (calls : List InformerCall) :
    ticks.foldl controller.runStep ⟨.returned err, calls⟩ = ⟨.returned err, calls⟩ := by
  induction ticks with
  | nil => rfl
  | cons t rest ih => simpa [controller.runStep] using ih

theorem runStep_waiting (ticks : List Tick) (calls : List InformerCall)
    (h : ∀ u ∈ ticks, u.synced = none) :
    ticks.foldl controller.runStep ⟨.waitForCacheSync, calls⟩ = ⟨.waitForCacheSync, calls⟩ := by
  induction ticks with
  | nil => rfl
  | cons t rest ih =>
    have ht : t.synced = none := h t (by simp)
    simp only [List.foldl_cons, controller.runStep, ht]
    exact ih (fun u hu => h u (by simp [hu]))

theorem runStep_watching (ticks : List Tick) (calls : List InformerCall)
    (h : ∀ u ∈ ticks, u.stop = false) :
    ticks.foldl controller.runStep ⟨.recvStop, calls⟩ = ⟨.recvStop, calls⟩ := by
  induction ticks with
  | nil => rfl
  | cons t rest ih =>
    have ht : t.stop = false := h t (by simp)
    simp only [List.foldl_cons, controller.runStep, ht]
    exact ih (fun u hu => h u (by simp [hu]))

/-- From the wait for the cache, a handler is registered only at a tick where
the wait returns true, all earlier ticks still waiting. -/
theorem runStep_handler_after_sync (ticks : List Tick) :
    ∀ calls : List InformerCall, InformerCall.AddEventHandler ∉ calls →
      InformerCall.AddEventHandler ∈
        (ticks.foldl controller.runStep ⟨.waitForCacheSync, calls⟩).informer →
      ∃ pre t post, ticks = pre ++ t :: post ∧ (∀ u ∈ pre, u.synced = none) ∧
        t.synced = some true := by
  induction ticks with
  | nil => intro calls hn hm; exact absurd hm hn
  | cons t rest ih =>
    intro calls hn hm
    rcases hs : t.synced with _ | b
    · simp only [List.foldl_cons, controller.runStep, hs] at hm
      obtain ⟨pre, t1, post, he, hp, ht⟩ := ih calls hn hm
      refine ⟨t :: pre, t1, post, by simp [he], ?_, ht⟩
      intro u hu
      rcases List.mem_cons.1 hu with rfl | hu
      · exact hs
      · exact hp u hu
    · cases b with
      | true => exact ⟨[], t, rest, rfl, by simp, hs⟩
      | false =>
        simp only [List.foldl_cons, controller.runStep, hs] at hm
        rw [runStep_returned] at hm
        exact absurd hm hn

/-- The loop reaches "returned nil" only through a tick at which `stop` is
closed. -/
theorem runStep_nil_after_stop (ticks : List Tick) :
    ∀ s : RunState, s.pc ≠ .returned none →
      (ticks.foldl controller.runStep s).pc = .returned none →
      ∃ t ∈ ticks, t.stop = true := by
  induction ticks with
  | nil => intro s hs h; exact absurd h hs
  | cons t rest ih =>
    intro s hs h
    cases hstop : t.stop with
    | true => exact ⟨t, by simp, hstop⟩
    | false =>
      have hne : (controller.runStep s t).pc ≠ .returned none := by
        obtain ⟨pc, calls⟩ := s
        cases pc with
        | waitForCacheSync =>
          rcases hsy : t.synced with _ | b
          · simp [controller.runStep, hsy]
          · cases b <;> simp [controller.runStep, hsy, hstop]
        | recvStop => simp [controller.runStep, hstop]
        | returned err => simpa [controller.runStep] using hs
      obtain ⟨u, hu, hus⟩ := ih _ hne h
      exact ⟨u, by simp [hu], hus⟩

/-- Past the wait for the cache, the handlers are registered. -/
theorem runStep_handlers_registered (ticks : List Tick) :
    ∀ s : RunState,
      ((s.pc = .returned none ∨ s.pc = .recvStop) →
        InformerCall.AddEventHandler ∈ s.informer) →
      ((ticks.foldl controller.runStep s).pc = .returned none ∨
        (ticks.foldl controller.runStep s).pc = .recvStop) →
      InformerCall.AddEventHandler ∈ (ticks.foldl controller.runStep s).informer := by
  induction ticks with
  | nil => intro s hs h; exact hs h
  | cons t rest ih =>
    intro s hs h
    refine ih (controller.runStep s t) ?_ h
    obtain ⟨pc, calls⟩ := s
    cases pc with
    | waitForCacheSync =>
      rcases hsy : t.synced with _ | b
      · simp [controller.runStep, hsy]
      · cases b
        · simp [controller.runStep, hsy]
        · cases hst : t.stop <;> simp [controller.runStep, hsy, hst]
    | recvStop =>
      have hc : InformerCall.AddEventHandler ∈ calls := hs (Or.inr rfl)
      cases hst : t.stop <;> simp [controller.runStep, hst, hc]
    | returned err => simpa [controller.runStep] using hs

/-- C10: in `controller.run`, a handler is registered only after the wait for
the initial sync has returned true. While the wait blocks, nothing is
registered and `run` has not returned. If the wait fails, `run` returns the
error "sync peer cache" with no handler registered. If the wait succeeds,
`run` registers the handlers, stays blocked as long as `stop` is open, and
returns nil at the first tick at which `stop` is closed; it never returns nil
without such a tick. -/
theorem run_registers_after_sync :
    (∀ ticks, InformerCall.AddEventHandler ∈ (controller.run ticks).informer →
      ∃ pre t post, ticks = pre ++ t :: post ∧ (∀ u ∈ pre, u.synced = none) ∧
        t.synced = some true) ∧
    (∀ pre, (∀ u ∈ pre, u.synced = none) →
      controller.run pre = ⟨.waitForCacheSync, [.Run]⟩) ∧
    (∀ pre t post, (∀ u ∈ pre, u.synced = none) → t.synced = some false →
      controller.run (pre ++ t :: post) =
        ⟨.returned (some (.new "sync peer cache")), [.Run]⟩) ∧
    (∀ pre t mid, (∀ u ∈ pre, u.synced = none) → t.synced = some true →
      (∀ u ∈ t :: mid, u.stop = false) →
      controller.run (pre ++ t :: mid) = ⟨.recvStop, [.Run, .AddEventHandler]⟩) ∧
    (∀ pre t mid s post, (∀ u ∈ pre, u.synced = none) → t.synced = some true →
      (∀ u ∈ t :: mid, u.stop = false) → s.stop = true →
      controller.run (pre ++ t :: (mid ++ s :: post)) =
        ⟨.returned none, [.Run, .AddEventHandler]⟩) ∧
    (∀ pre t post, (∀ u ∈ pre, u.synced = none) → t.synced = some true → t.stop = true →
      controller.run (pre ++ t :: post) = ⟨.returned none, [.Run, .AddEventHandler]⟩) ∧
    (∀ ticks, (controller.run ticks).pc = .returned none →
      (∃ t ∈ ticks, t.stop = true) ∧
      InformerCall.AddEventHandler ∈ (controller.run ticks).informer) := by
  have hwatch : ∀ pre t mid, (∀ u ∈ pre, u.synced = none) → t.synced = some true →
      (∀ u ∈ t :: mid, u.stop = false) →
      controller.run (pre ++ t :: mid) = ⟨.recvStop, [.Run, .AddEventHandler]⟩ := by
    intro pre t mid hp ht hm
    have hts : t.stop = false := hm t (by simp)
    unfold controller.run controller.runStart
    rw [List.foldl_append, runStep_waiting pre _ hp]
    simp only [List.foldl_cons, controller.runStep, ht, hts]
    exact runStep_watching mid _ (fun u hu => hm u (by simp [hu]))
  refine ⟨?_, ?_, ?_, hwatch, ?_, ?_, ?_⟩
  · intro ticks h
    exact runStep_handler_after_sync ticks [.Run] (by decide) h
  · intro pre hp
    exact runStep_waiting pre _ hp
  · intro pre t post hp ht
    unfold controller.run controller.runStart
    rw [List.foldl_append, runStep_waiting pre _ hp]
    simp only [List.foldl_cons, controller.runStep, ht]
    exact runStep_returned post _ _
  · intro pre t mid s post hp ht hm hs
    have h1 := hwatch pre t mid hp ht hm
    unfold controller.run at h1 ⊢
    rw [← List.cons_append, ← List.append_assoc, List.foldl_append, h1]
    simp only [List.foldl_cons, controller.runStep, hs]
    exact runStep_returned post _ _
  · intro pre t post hp ht hs
    unfold controller.run controller.runStart
    rw [List.foldl_append, runStep_waiting pre _ hp]
    simp only [List.foldl_cons, controller.runStep, ht, hs]
    exact runStep_returned post _ _
  · intro ticks h
    exact ⟨runStep_nil_after_stop ticks controller.runStart (by decide) h,
      runStep_handlers_registered ticks controller.runStart (by decide) (Or.inl h)⟩

/-- C10 on two courses: the wait fails after one blocked tick, and the wait
succeeds, one tick passes with `stop` open, then `stop` is closed. -/
theorem run_registers_after_sync_witness :
    controller.run ([⟨none, false⟩] ++ ⟨some false, true⟩ :: []) =
      ⟨.returned (some (.new "sync peer cache")), [.Run]⟩ ∧
    controller.run ([⟨none, false⟩] ++ ⟨some true, false⟩ ::
        ([⟨none, false⟩] ++ ⟨none, true⟩ :: [])) =
      ⟨.returned none, [.Run, .AddEventHandler]⟩ :=
  ⟨run_registers_after_sync.2.2.1 [⟨none, false⟩] ⟨some false, true⟩ []
      (by intro u hu; rw [List.mem_singleton.1 hu]) rfl,
   run_registers_after_sync.2.2.2.2.1 [⟨none, false⟩] ⟨some true, false⟩ [⟨none, false⟩]
      ⟨none, true⟩ [] (by intro u hu; rw [List.mem_singleton.1 hu]) rfl
      (by
        intro u hu
        simp only [List.mem_cons, List.mem_singleton, List.not_mem_nil, or_false] at hu
        rcases hu with rfl | rfl <;> rfl)
      rfl⟩

end ConfigmapToDisk
